import Mathlib

/-!
Shallow embedding of `src/services/AudioProcessor.ts`.

Samples are modelled as rationals (`ℚ`); the `DataView` over an
`ArrayBuffer` is modelled as a total byte map `ℕ → ℕ` that starts at 0
everywhere (a fresh `ArrayBuffer` is zero-filled) and is updated
positionally, exactly as the JavaScript code writes it.  The produced
`Blob` is the list of the buffer's bytes in order.

JavaScript numeric conversions are made explicit:
`DataView.setUint8/setUint16/setUint32` reduce the value modulo
2^8/2^16/2^32 and store little-endian bytes; `DataView.setInt16` first
truncates the floating-point value toward zero (`ToIntegerOrInfinity`)
and then stores its two's-complement 16-bit image little-endian.
-/

/-- A decoded multi-channel audio buffer: mirrors the fields of the Web
Audio `AudioBuffer` that the code reads (`sampleRate`, `length` = frame
count, and `getChannelData(i)` for each channel `i`). -/
structure RawAudioBuffer where
  sampleRate : ℕ
  length : ℕ
  channels : List (List ℚ)

/-- Well-formedness invariant of a real `AudioBuffer`: every channel
holds exactly `length` frames. -/
def wellformed (b : RawAudioBuffer) : Prop :=
  ∀ c ∈ b.channels, c.length = b.length

instance (b : RawAudioBuffer) : Decidable (wellformed b) :=
  inferInstanceAs (Decidable (∀ c ∈ b.channels, c.length = b.length))

/-- Error reported when the external decode capability fails. -/
structure DecodeError where
  msg : String

/-- Byte map of a `DataView` over an `ArrayBuffer`. -/
def ByteView : Type := ℕ → ℕ

/-- JavaScript `DataView.setUint8`: store `x` modulo 256 at `off`. -/
def setUint8 (view : ByteView) (off : ℕ) (x : ℕ) : ByteView :=
  fun j => if j = off then x % 256 else view j

/-- JavaScript `DataView.setUint16(off, x, true)`: little-endian. -/
def setUint16LE (view : ByteView) (off : ℕ) (x : ℕ) : ByteView :=
  setUint8 (setUint8 view off x) (off + 1) (x / 256)

/-- JavaScript `DataView.setUint32(off, x, true)`: little-endian. -/
def setUint32LE (view : ByteView) (off : ℕ) (x : ℕ) : ByteView :=
  setUint8 (setUint8 (setUint8 (setUint8 view off x) (off + 1) (x / 256))
    (off + 2) (x / 65536)) (off + 3) (x / 16777216)

/-- Two's-complement 16-bit image of an integer (`ToInt16` raw bytes). -/
def toUint16 (x : ℤ) : ℕ :=
  (x % 65536).toNat

/-- JavaScript `DataView.setInt16(off, x, true)` applied to an already
truncated integer value: wrap to 16 bits and store little-endian. -/
def setInt16LE (view : ByteView) (off : ℕ) (x : ℤ) : ByteView :=
  setUint16LE view off (toUint16 x)

/-- JavaScript `ToIntegerOrInfinity`: truncation toward zero. -/
def jsTrunc (q : ℚ) : ℤ :=
  if q < 0 then ⌈q⌉ else ⌊q⌋

/-- Embeds `writeString` (`AudioProcessor.ts` lines 38-42): store the
character codes of `str` at consecutive offsets. -/
def writeChars (view : ByteView) (off : ℕ) : List Char → ByteView
  | [] => view
  | c :: rest => writeChars (setUint8 view off c.toNat) (off + 1) rest

/-- Embeds `writeString` on a Lean `String` (`charCodeAt` = code point
for the ASCII strings used here). -/
def writeString (view : ByteView) (off : ℕ) (str : String) : ByteView :=
  writeChars view off str.data

/-- Per-sample quantization performed by `floatTo16BitPCM`
(`AudioProcessor.ts` lines 65-66): clamp to [-1, 1] with
`Math.max(-1, Math.min(1, s))`, scale by 0x8000 for negative values and
0x7FFF otherwise, then truncate toward zero as `setInt16` does. -/
def quantize16 (sample : ℚ) : ℤ :=
  let s := max (-1) (min 1 sample)
  jsTrunc (if s < 0 then s * 32768 else s * 32767)

/-- Embeds `floatTo16BitPCM` (`AudioProcessor.ts` lines 63-68): write
each sample's quantized 16-bit value little-endian at `offset`,
`offset+2`, ... -/
def floatTo16BitPCM : ByteView → ℕ → List ℚ → ByteView
  | output, _, [] => output
  | output, offset, s :: rest =>
      floatTo16BitPCM (setInt16LE output offset (quantize16 s)) (offset + 2) rest

/-- Frame-major filling loop of `interleave` (`AudioProcessor.ts` lines
54-59): frames 0..n-1 in order, each frame listing `channels[j][i]` for
`j` in channel order. -/
def interleaveFrames (channels : List (List ℚ)) : ℕ → List ℚ
  | 0 => []
  | n + 1 => interleaveFrames channels n ++ channels.map (fun ch => ch.getD n 0)

/-- Embeds `interleave` (`AudioProcessor.ts` lines 44-61). -/
def interleave (b : RawAudioBuffer) : List ℚ :=
  interleaveFrames b.channels b.length

/-- Header-writing part of `audioBufferToWavBlob` (`AudioProcessor.ts`
lines 71-101): the `DataView` state after the 44-byte RIFF/WAVE header
has been written into the fresh zero-filled buffer, with `format = 1`
and `bitDepth = 16` as in the source. -/
def headerView (b : RawAudioBuffer) : ByteView :=
  let numChannels := b.channels.length
  let sampleRate := b.sampleRate
  let bitDepth := 16
  let dataLength := (interleave b).length * (bitDepth / 8)
  let view : ByteView := fun _ => 0
  let view := writeString view 0 "RIFF"
  let view := setUint32LE view 4 (36 + dataLength)
  let view := writeString view 8 "WAVE"
  let view := writeString view 12 "fmt "
  let view := setUint32LE view 16 16
  let view := setUint16LE view 20 1
  let view := setUint16LE view 22 numChannels
  let view := setUint32LE view 24 sampleRate
  let view := setUint32LE view 28 (sampleRate * numChannels * (bitDepth / 8))
  let view := setUint16LE view 32 (numChannels * (bitDepth / 8))
  let view := setUint16LE view 34 bitDepth
  let view := writeString view 36 "data"
  let view := setUint32LE view 40 dataLength
  view

/-- Embeds `audioBufferToWavBlob` (`AudioProcessor.ts` lines 71-107):
header writes followed by `floatTo16BitPCM(view, 44, interleaved)`; the
returned `Blob` is the byte sequence of the whole buffer. -/
def audioBufferToWavBlob (b : RawAudioBuffer) : List ℕ :=
  let interleaved := interleave b
  let bitDepth := 16
  let dataLength := interleaved.length * (bitDepth / 8)
  let bufferLength := 44 + dataLength
  let view := floatTo16BitPCM (headerView b) 44 interleaved
  (List.range bufferLength).map view

/-- Embeds the per-channel reversal (`AudioProcessor.ts` line 27):
`Float32Array.from(channelData).reverse()` — a reversed copy of the
channel's samples. -/
def reverseChannel (ch : List ℚ) : List ℚ :=
  ch.reverse

/-- Embeds the channel-reversal core of `reverseAudioBuffer`
(`AudioProcessor.ts` lines 17-30): a fresh buffer of identical shape
whose channel `i` is the reversed copy of the decoded channel `i`. -/
def reverseAudioData (b : RawAudioBuffer) : RawAudioBuffer :=
  { sampleRate := b.sampleRate
    length := b.length
    channels := b.channels.map reverseChannel }

/-- Embeds `reverseAudioBuffer` (`AudioProcessor.ts` lines 11-35): the
external `decodeAudioData` capability either fails (the `catch` branch
returns `null`, modelled as `none`) or yields a decoded buffer that is
reversed channel by channel. -/
def reverseAudioBuffer (decoded : Except DecodeError RawAudioBuffer) :
    Option RawAudioBuffer :=
  match decoded with
  | Except.error _ => none
  | Except.ok b => some (reverseAudioData b)

/-- Little-endian unsigned 16-bit read from the produced byte list. -/
def readU16 (bytes : List ℕ) (off : ℕ) : ℕ :=
  bytes.getD off 0 + 256 * bytes.getD (off + 1) 0

/-- Little-endian unsigned 32-bit read from the produced byte list. -/
def readU32 (bytes : List ℕ) (off : ℕ) : ℕ :=
  bytes.getD off 0 + 256 * bytes.getD (off + 1) 0
    + 65536 * bytes.getD (off + 2) 0 + 16777216 * bytes.getD (off + 3) 0

/-- Little-endian signed 16-bit read from the produced byte list. -/
def readS16 (bytes : List ℕ) (off : ℕ) : ℤ :=
  let u := readU16 bytes off
  if u < 32768 then (u : ℤ) else (u : ℤ) - 65536

/-- Quantization as the spec words it once its rounding mode is amended
to truncation: clamp `s` to [-1, 1]; scale by 32768 when negative and by
32767 otherwise; truncate the scaled value toward zero (written here as
the negated floor of the negation for negative values). -/
def quantizeSpecTrunc (s : ℚ) : ℤ :=
  let c := max (-1) (min 1 s)
  let scaled := if c < 0 then c * 32768 else c * 32767
  if scaled < 0 then -⌊-scaled⌋ else ⌊scaled⌋

/-! Infrastructure lemmas about the byte-level embedding. -/

lemma floatTo16BitPCM_apply_lt (input : List ℚ) (v : ByteView) (off j : ℕ)
    (h : j < off) : floatTo16BitPCM v off input j = v j := by
  induction input generalizing v off with
  | nil => rfl
  | cons s rest ih =>
      simp only [floatTo16BitPCM]
      rw [ih _ _ (by omega)]
      simp only [setInt16LE, setUint16LE, setUint8]
      rw [if_neg (by omega), if_neg (by omega)]

lemma floatTo16BitPCM_read (input : List ℚ) (v : ByteView) (off p : ℕ)
    (hp : p < input.length) :
    floatTo16BitPCM v off input (off + 2 * p)
        = toUint16 (quantize16 (input.getD p 0)) % 256 ∧
    floatTo16BitPCM v off input (off + 2 * p + 1)
        = toUint16 (quantize16 (input.getD p 0)) / 256 % 256 := by
  induction input generalizing v off p with
  | nil => simp at hp
  | cons s rest ih =>
      cases p with
      | zero =>
          simp only [floatTo16BitPCM, Nat.mul_zero, Nat.add_zero]
          constructor
          · rw [floatTo16BitPCM_apply_lt _ _ _ _ (by omega)]
            simp only [setInt16LE, setUint16LE, setUint8]
            rw [if_neg (by omega)]
            simp
          · rw [floatTo16BitPCM_apply_lt _ _ _ _ (by omega)]
            simp only [setInt16LE, setUint16LE, setUint8]
            simp
      | succ q =>
          have hq : q < rest.length := by simpa using hp
          have h1 : off + 2 * (q + 1) = (off + 2) + 2 * q := by omega
          have h2 : off + 2 * (q + 1) + 1 = (off + 2) + 2 * q + 1 := by omega
          simp only [floatTo16BitPCM, h1, h2]
          exact ih _ _ _ hq

lemma interleaveFrames_length (cs : List (List ℚ)) (n : ℕ) :
    (interleaveFrames cs n).length = n * cs.length := by
  induction n with
  | zero => simp [interleaveFrames]
  | succ m ih =>
      simp only [interleaveFrames, List.length_append, ih, List.length_map]
      ring

lemma interleave_length (b : RawAudioBuffer) :
    (interleave b).length = b.length * b.channels.length :=
  interleaveFrames_length b.channels b.length

lemma interleaveFrames_getD (cs : List (List ℚ)) (n i j : ℕ)
    (hi : i < n) (hj : j < cs.length) :
    (interleaveFrames cs n).getD (i * cs.length + j) 0
      = (cs.getD j []).getD i 0 := by
  induction n with
  | zero => omega
  | succ m ih =>
      simp only [interleaveFrames]
      rcases Nat.lt_or_ge i m with him | him
      · rw [List.getD_append _ _ _ _ (by
          rw [interleaveFrames_length]
          calc i * cs.length + j < i * cs.length + cs.length := by omega
            _ = (i + 1) * cs.length := by ring
            _ ≤ m * cs.length := Nat.mul_le_mul_right _ (by omega))]
        exact ih him
      · have hi' : i = m := by omega
        subst hi'
        have hpos : i * cs.length + j
            = (interleaveFrames cs i).length + j := by
          rw [interleaveFrames_length]
        rw [hpos, List.getD_append_right _ _ _ _ (by omega)]
        have hj' : (interleaveFrames cs i).length + j
            - (interleaveFrames cs i).length = j := by omega
        rw [hj']
        rw [List.getD_eq_getElem _ _ (by simpa using hj),
          List.getElem_map, List.getD_eq_getElem _ _ hj]

lemma audioBufferToWavBlob_eq (b : RawAudioBuffer) :
    audioBufferToWavBlob b
      = (List.range (44 + (interleave b).length * 2)).map
          (floatTo16BitPCM (headerView b) 44 (interleave b)) := rfl

lemma encode_length (b : RawAudioBuffer) :
    (audioBufferToWavBlob b).length = 44 + (interleave b).length * 2 := by
  rw [audioBufferToWavBlob_eq]
  simp

lemma encode_getD (b : RawAudioBuffer) (k : ℕ)
    (hk : k < 44 + (interleave b).length * 2) :
    (audioBufferToWavBlob b).getD k 0
      = floatTo16BitPCM (headerView b) 44 (interleave b) k := by
  rw [audioBufferToWavBlob_eq,
    List.getD_eq_getElem _ _ (by simpa using hk)]
  simp

lemma encode_getD_header (b : RawAudioBuffer) (k : ℕ) (hk : k < 44) :
    (audioBufferToWavBlob b).getD k 0 = headerView b k := by
  rw [encode_getD b k (by omega), floatTo16BitPCM_apply_lt _ _ _ _ (by omega)]

lemma riff_data : "RIFF".data = ['R', 'I', 'F', 'F'] := rfl

lemma wave_data : "WAVE".data = ['W', 'A', 'V', 'E'] := rfl

lemma fmt_data : "fmt ".data = ['f', 'm', 't', ' '] := rfl

lemma data_data : "data".data = ['d', 'a', 't', 'a'] := rfl

lemma quantize16_mem (s : ℚ) : -32768 ≤ quantize16 s ∧ quantize16 s ≤ 32767 := by
  have h1 : (-1 : ℚ) ≤ max (-1) (min 1 s) := le_max_left _ _
  have h2 : max (-1 : ℚ) (min 1 s) ≤ 1 := max_le (by norm_num) (min_le_left _ _)
  simp only [quantize16, jsTrunc]
  set c := max (-1 : ℚ) (min 1 s) with hcdef
  by_cases hc : c < 0
  · rw [if_pos hc]
    have hq1 : (-32768 : ℚ) ≤ c * 32768 := by nlinarith
    have hq2 : c * 32768 < 0 := by nlinarith
    rw [if_pos hq2]
    constructor
    · calc (-32768 : ℤ) = ⌈((-32768 : ℤ) : ℚ)⌉ := (Int.ceil_intCast _).symm
        _ ≤ ⌈c * 32768⌉ := Int.ceil_le_ceil (by push_cast; linarith)
    · have h3 : ⌈c * 32768⌉ ≤ 0 := by
        apply Int.ceil_le.mpr
        push_cast
        linarith
      omega
  · rw [if_neg hc]
    push_neg at hc
    have hq1 : (0 : ℚ) ≤ c * 32767 := mul_nonneg hc (by norm_num)
    have hq2 : c * 32767 ≤ 32767 := by nlinarith
    rw [if_neg (not_lt.mpr hq1)]
    constructor
    · have h3 : (0 : ℤ) ≤ ⌊c * 32767⌋ := Int.le_floor.mpr (by push_cast; linarith)
      omega
    · calc ⌊c * 32767⌋ ≤ ⌊((32767 : ℤ) : ℚ)⌋ :=
            Int.floor_le_floor (by push_cast; linarith)
        _ = 32767 := Int.floor_intCast _

lemma encode_payload (b : RawAudioBuffer) (p : ℕ)
    (hp : p < (interleave b).length) :
    readS16 (audioBufferToWavBlob b) (44 + 2 * p)
      = quantize16 ((interleave b).getD p 0) := by
  have hb := quantize16_mem ((interleave b).getD p 0)
  have h0 := (floatTo16BitPCM_read (interleave b) (headerView b) 44 p hp).1
  have h1 := (floatTo16BitPCM_read (interleave b) (headerView b) 44 p hp).2
  rw [readS16, readU16, encode_getD b (44 + 2 * p) (by omega),
    encode_getD b (44 + 2 * p + 1) (by omega), h0, h1]
  simp only [toUint16] at *
  split <;> omega

lemma encode_riff_bytes (b : RawAudioBuffer) :
    (audioBufferToWavBlob b).getD 0 0 = 82 ∧
    (audioBufferToWavBlob b).getD 1 0 = 73 ∧
    (audioBufferToWavBlob b).getD 2 0 = 70 ∧
    (audioBufferToWavBlob b).getD 3 0 = 70 := by
  refine ⟨?_, ?_, ?_, ?_⟩ <;>
  · rw [encode_getD_header b _ (by omega)]
    simp [headerView, writeString, writeChars, setUint32LE, setUint16LE,
      setUint8, riff_data, wave_data, fmt_data, data_data]

lemma encode_wave_bytes (b : RawAudioBuffer) :
    (audioBufferToWavBlob b).getD 8 0 = 87 ∧
    (audioBufferToWavBlob b).getD 9 0 = 65 ∧
    (audioBufferToWavBlob b).getD 10 0 = 86 ∧
    (audioBufferToWavBlob b).getD 11 0 = 69 := by
  refine ⟨?_, ?_, ?_, ?_⟩ <;>
  · rw [encode_getD_header b _ (by omega)]
    simp [headerView, writeString, writeChars, setUint32LE, setUint16LE,
      setUint8, riff_data, wave_data, fmt_data, data_data]

lemma encode_fmtTag_bytes (b : RawAudioBuffer) :
    (audioBufferToWavBlob b).getD 12 0 = 102 ∧
    (audioBufferToWavBlob b).getD 13 0 = 109 ∧
    (audioBufferToWavBlob b).getD 14 0 = 116 ∧
    (audioBufferToWavBlob b).getD 15 0 = 32 := by
  refine ⟨?_, ?_, ?_, ?_⟩ <;>
  · rw [encode_getD_header b _ (by omega)]
    simp [headerView, writeString, writeChars, setUint32LE, setUint16LE,
      setUint8, riff_data, wave_data, fmt_data, data_data]

lemma encode_data_bytes (b : RawAudioBuffer) :
    (audioBufferToWavBlob b).getD 36 0 = 100 ∧
    (audioBufferToWavBlob b).getD 37 0 = 97 ∧
    (audioBufferToWavBlob b).getD 38 0 = 116 ∧
    (audioBufferToWavBlob b).getD 39 0 = 97 := by
  refine ⟨?_, ?_, ?_, ?_⟩ <;>
  · rw [encode_getD_header b _ (by omega)]
    simp [headerView, writeString, writeChars, setUint32LE, setUint16LE,
      setUint8, riff_data, wave_data, fmt_data, data_data]

lemma encode_chunkSize (b : RawAudioBuffer) :
    readU32 (audioBufferToWavBlob b) 4
      = (36 + (interleave b).length * 2) % 4294967296 := by
  rw [readU32, encode_getD_header b 4 (by omega),
    encode_getD_header b 5 (by omega), encode_getD_header b 6 (by omega),
    encode_getD_header b 7 (by omega)]
  simp [headerView, writeString, writeChars, setUint32LE, setUint16LE,
    setUint8, riff_data, wave_data, fmt_data, data_data]
  omega

lemma encode_fmtSize (b : RawAudioBuffer) :
    readU32 (audioBufferToWavBlob b) 16 = 16 := by
  rw [readU32, encode_getD_header b 16 (by omega),
    encode_getD_header b 17 (by omega), encode_getD_header b 18 (by omega),
    encode_getD_header b 19 (by omega)]
  simp [headerView, writeString, writeChars, setUint32LE, setUint16LE,
    setUint8, riff_data, wave_data, fmt_data, data_data]

lemma encode_formatTag (b : RawAudioBuffer) :
    readU16 (audioBufferToWavBlob b) 20 = 1 := by
  rw [readU16, encode_getD_header b 20 (by omega),
    encode_getD_header b 21 (by omega)]
  simp [headerView, writeString, writeChars, setUint32LE, setUint16LE,
    setUint8, riff_data, wave_data, fmt_data, data_data]

lemma encode_numChannels (b : RawAudioBuffer) :
    readU16 (audioBufferToWavBlob b) 22 = b.channels.length % 65536 := by
  rw [readU16, encode_getD_header b 22 (by omega),
    encode_getD_header b 23 (by omega)]
  simp [headerView, writeString, writeChars, setUint32LE, setUint16LE,
    setUint8, riff_data, wave_data, fmt_data, data_data]
  omega

lemma encode_sampleRate (b : RawAudioBuffer) :
    readU32 (audioBufferToWavBlob b) 24 = b.sampleRate % 4294967296 := by
  rw [readU32, encode_getD_header b 24 (by omega),
    encode_getD_header b 25 (by omega), encode_getD_header b 26 (by omega),
    encode_getD_header b 27 (by omega)]
  simp [headerView, writeString, writeChars, setUint32LE, setUint16LE,
    setUint8, riff_data, wave_data, fmt_data, data_data]
  omega

lemma encode_byteRate (b : RawAudioBuffer) :
    readU32 (audioBufferToWavBlob b) 28
      = (b.sampleRate * b.channels.length * 2) % 4294967296 := by
  rw [readU32, encode_getD_header b 28 (by omega),
    encode_getD_header b 29 (by omega), encode_getD_header b 30 (by omega),
    encode_getD_header b 31 (by omega)]
  simp [headerView, writeString, writeChars, setUint32LE, setUint16LE,
    setUint8, riff_data, wave_data, fmt_data, data_data]
  omega

lemma encode_blockAlign (b : RawAudioBuffer) :
    readU16 (audioBufferToWavBlob b) 32 = (b.channels.length * 2) % 65536 := by
  rw [readU16, encode_getD_header b 32 (by omega),
    encode_getD_header b 33 (by omega)]
  simp [headerView, writeString, writeChars, setUint32LE, setUint16LE,
    setUint8, riff_data, wave_data, fmt_data, data_data]
  omega

lemma encode_bitsPerSample (b : RawAudioBuffer) :
    readU16 (audioBufferToWavBlob b) 34 = 16 := by
  rw [readU16, encode_getD_header b 34 (by omega),
    encode_getD_header b 35 (by omega)]
  simp [headerView, writeString, writeChars, setUint32LE, setUint16LE,
    setUint8, riff_data, wave_data, fmt_data, data_data]

lemma encode_dataLength (b : RawAudioBuffer) :
    readU32 (audioBufferToWavBlob b) 40
      = ((interleave b).length * 2) % 4294967296 := by
  rw [readU32, encode_getD_header b 40 (by omega),
    encode_getD_header b 41 (by omega), encode_getD_header b 42 (by omega),
    encode_getD_header b 43 (by omega)]
  simp [headerView, writeString, writeChars, setUint32LE, setUint16LE,
    setUint8, riff_data, wave_data, fmt_data, data_data]
  omega

lemma getD_reverse (l : List ℚ) (i : ℕ) (hi : i < l.length) :
    l.reverse.getD i 0 = l.getD (l.length - 1 - i) 0 := by
  rw [List.getD_eq_getElem _ _ (by simpa using hi),
    List.getElem_reverse, ← List.getD_eq_getElem _ _ (by omega)]

lemma quantize16_one : quantize16 1 = 32767 := by
  norm_num [quantize16, jsTrunc, min_def, max_def]

lemma quantize16_half : quantize16 (1/2) = 16383 := by
  norm_num [quantize16, jsTrunc, min_def, max_def]

lemma quantize16_neg_one : quantize16 (-1) = -32768 := by
  norm_num [quantize16, jsTrunc, min_def, max_def, Int.ceil_neg,
    Int.floor_natCast, Int.floor_intCast]

lemma quantize16_zero : quantize16 0 = 0 := by
  norm_num [quantize16, jsTrunc, min_def, max_def]

lemma interleave_example :
    interleave ⟨44100, 2, [[1, -1], [1/2, 0]]⟩ = [1, 1/2, -1, 0] := by
  norm_num [interleave, interleaveFrames]

/-! Claim theorems. -/

/-- C1: for every decodable input, `reverseAudioBuffer` succeeds and the
returned buffer keeps the decoded `sampleRate`, the channel count with
channels in the same index order, and every channel has the decoded
frame count, with channel `k` at index `i` equal to decoded channel `k`
at index `frameCount - 1 - i` — numerically identical values, no gain,
clipping or dithering. -/
theorem c1_reverse_shape_and_reversal (b : RawAudioBuffer)
    (h : wellformed b) :
    reverseAudioBuffer (Except.ok b) = some (reverseAudioData b) ∧
    (reverseAudioData b).sampleRate = b.sampleRate ∧
    (reverseAudioData b).length = b.length ∧
    (reverseAudioData b).channels.length = b.channels.length ∧
    (∀ k, k < b.channels.length →
      ((reverseAudioData b).channels.getD k []).length = b.length) ∧
    (∀ k i, k < b.channels.length → i < b.length →
      ((reverseAudioData b).channels.getD k []).getD i 0
        = (b.channels.getD k []).getD (b.length - 1 - i) 0) := by
  have hmap : ∀ k, k < b.channels.length →
      (reverseAudioData b).channels.getD k []
        = (b.channels.getD k []).reverse := by
    intro k hk
    rw [reverseAudioData]
    rw [List.getD_eq_getElem _ _ (by simpa using hk), List.getElem_map,
      List.getD_eq_getElem _ _ hk]
    rfl
  have hlen : ∀ k, k < b.channels.length →
      (b.channels.getD k []).length = b.length := by
    intro k hk
    rw [List.getD_eq_getElem _ _ hk]
    exact h _ (List.getElem_mem hk)
  refine ⟨rfl, rfl, rfl, by simp [reverseAudioData], ?_, ?_⟩
  · intro k hk
    rw [hmap k hk, List.length_reverse]
    exact hlen k hk
  · intro k i hk hi
    have hl := hlen k hk
    rw [hmap k hk, getD_reverse _ _ (by omega), hl]

/-- C1 witness: concrete stereo buffer with two frames per channel. -/
theorem c1_witness :
    wellformed ⟨8000, 2, [[1, 2], [3, 4]]⟩ ∧
    (reverseAudioBuffer (Except.ok ⟨8000, 2, [[1, 2], [3, 4]]⟩)
      = some (reverseAudioData ⟨8000, 2, [[1, 2], [3, 4]]⟩) ∧
    (reverseAudioData (⟨8000, 2, [[1, 2], [3, 4]]⟩ : RawAudioBuffer)).sampleRate
      = (⟨8000, 2, [[1, 2], [3, 4]]⟩ : RawAudioBuffer).sampleRate ∧
    (reverseAudioData (⟨8000, 2, [[1, 2], [3, 4]]⟩ : RawAudioBuffer)).length
      = (⟨8000, 2, [[1, 2], [3, 4]]⟩ : RawAudioBuffer).length ∧
    (reverseAudioData (⟨8000, 2, [[1, 2], [3, 4]]⟩ : RawAudioBuffer)).channels.length
      = (⟨8000, 2, [[1, 2], [3, 4]]⟩ : RawAudioBuffer).channels.length ∧
    (∀ k, k < (⟨8000, 2, [[1, 2], [3, 4]]⟩ : RawAudioBuffer).channels.length →
      ((reverseAudioData (⟨8000, 2, [[1, 2], [3, 4]]⟩ : RawAudioBuffer)).channels.getD k []).length
        = (⟨8000, 2, [[1, 2], [3, 4]]⟩ : RawAudioBuffer).length) ∧
    (∀ k i, k < (⟨8000, 2, [[1, 2], [3, 4]]⟩ : RawAudioBuffer).channels.length →
        i < (⟨8000, 2, [[1, 2], [3, 4]]⟩ : RawAudioBuffer).length →
      ((reverseAudioData (⟨8000, 2, [[1, 2], [3, 4]]⟩ : RawAudioBuffer)).channels.getD k []).getD i 0
        = ((⟨8000, 2, [[1, 2], [3, 4]]⟩ : RawAudioBuffer).channels.getD k []).getD
            ((⟨8000, 2, [[1, 2], [3, 4]]⟩ : RawAudioBuffer).length - 1 - i) 0)) :=
  ⟨by decide, c1_reverse_shape_and_reversal ⟨8000, 2, [[1, 2], [3, 4]]⟩ (by decide)⟩

/-- C5: for every well-formed buffer, the interleave step builds a flat
sequence of length frameCount * channelCount in which the sample at flat
index i * channelCount + j equals channel j at frame i. -/
theorem c5_interleave_frame_major (b : RawAudioBuffer) (_h : wellformed b)
    (i j : ℕ) (hi : i < b.length) (hj : j < b.channels.length) :
    (interleave b).length = b.length * b.channels.length ∧
    (interleave b).getD (i * b.channels.length + j) 0
      = (b.channels.getD j []).getD i 0 :=
  ⟨interleave_length b, interleaveFrames_getD b.channels b.length i j hi hj⟩

/-- C5 witness: concrete stereo buffer, frame 1 of channel 1. -/
theorem c5_witness :
    wellformed ⟨8000, 2, [[1, 2], [3, 4]]⟩ ∧ 1 < 2 ∧
    ((interleave ⟨8000, 2, [[1, 2], [3, 4]]⟩).length
        = (⟨8000, 2, [[1, 2], [3, 4]]⟩ : RawAudioBuffer).length
            * (⟨8000, 2, [[1, 2], [3, 4]]⟩ : RawAudioBuffer).channels.length ∧
      (interleave ⟨8000, 2, [[1, 2], [3, 4]]⟩).getD
          (1 * (⟨8000, 2, [[1, 2], [3, 4]]⟩ : RawAudioBuffer).channels.length + 1) 0
        = ((⟨8000, 2, [[1, 2], [3, 4]]⟩ : RawAudioBuffer).channels.getD 1 []).getD 1 0) :=
  ⟨by decide, by decide,
    c5_interleave_frame_major ⟨8000, 2, [[1, 2], [3, 4]]⟩ (by decide)
      1 1 (by decide) (by decide)⟩

/-- C7: whenever the decode capability fails, `reverseAudioBuffer`
reports the failure to the caller (the catch branch: no buffer value is
produced at all, no partial or best-effort output). -/
theorem c7_decode_failure_no_buffer (e : DecodeError) :
    reverseAudioBuffer (Except.error e) = none := rfl

/-- C8: for every input sample, including values outside [-1, 1], the
quantized 16-bit value lies in [-32768, 32767], so the 16-bit write
never overflows or wraps. -/
theorem c8_quantization_bounded (s : ℚ) :
    -32768 ≤ quantize16 s ∧ quantize16 s ≤ 32767 :=
  quantize16_mem s

/-- C9: applying the per-channel reversal operation twice returns the
original sample sequence, for every channel length. -/
theorem c9_reversal_involution (samples : List ℚ) :
    reverseChannel (reverseChannel samples) = samples := by
  simp [reverseChannel]

/-- C6: for every well-formed buffer the total output length is exactly
44 + frameCount * channelCount * 2 with no trailing padding, and a
buffer with frameCount = 0 yields a 44-byte file whose dataLength field
is 0, with no error. -/
theorem c6_output_size_law (b : RawAudioBuffer) (_h : wellformed b) :
    (audioBufferToWavBlob b).length
        = 44 + b.length * b.channels.length * 2 ∧
    (b.length = 0 → (audioBufferToWavBlob b).length = 44 ∧
      readU32 (audioBufferToWavBlob b) 40 = 0) := by
  have hil := interleave_length b
  refine ⟨?_, ?_⟩
  · rw [encode_length, hil]
  · intro h0
    refine ⟨?_, ?_⟩
    · rw [encode_length, hil, h0]
      simp
    · rw [encode_dataLength, hil, h0]
      simp

/-- C6 witness: a stereo buffer with zero frames. -/
theorem c6_witness :
    wellformed ⟨8000, 0, ([[], []] : List (List ℚ))⟩ ∧
    ((audioBufferToWavBlob ⟨8000, 0, ([[], []] : List (List ℚ))⟩).length
        = 44 + (⟨8000, 0, ([[], []] : List (List ℚ))⟩ : RawAudioBuffer).length
            * (⟨8000, 0, ([[], []] : List (List ℚ))⟩ : RawAudioBuffer).channels.length * 2 ∧
      ((⟨8000, 0, ([[], []] : List (List ℚ))⟩ : RawAudioBuffer).length = 0 →
        (audioBufferToWavBlob ⟨8000, 0, ([[], []] : List (List ℚ))⟩).length = 44 ∧
        readU32 (audioBufferToWavBlob ⟨8000, 0, ([[], []] : List (List ℚ))⟩) 40 = 0)) :=
  ⟨by decide, c6_output_size_law ⟨8000, 0, ([[], []] : List (List ℚ))⟩ (by decide)⟩

/-- C10: for every buffer with zero channels, `audioBufferToWavBlob`
performs no contract-violation check and does not fail: it returns
exactly 44 bytes whose channel-count, byte-rate, block-align and
dataLength fields are all 0. -/
theorem c10_zero_channels_degenerate_file (b : RawAudioBuffer)
    (h : b.channels = []) :
    (audioBufferToWavBlob b).length = 44 ∧
    readU16 (audioBufferToWavBlob b) 22 = 0 ∧
    readU32 (audioBufferToWavBlob b) 28 = 0 ∧
    readU16 (audioBufferToWavBlob b) 32 = 0 ∧
    readU32 (audioBufferToWavBlob b) 40 = 0 := by
  have hil := interleave_length b
  rw [h] at hil
  simp only [List.length_nil, Nat.mul_zero] at hil
  refine ⟨?_, ?_, ?_, ?_, ?_⟩
  · rw [encode_length, hil]
  · rw [encode_numChannels, h]
    simp
  · rw [encode_byteRate, h]
    simp
  · rw [encode_blockAlign, h]
    simp
  · rw [encode_dataLength, hil]

/-- C10 witness: zero channels, nonzero frame count and sample rate. -/
theorem c10_witness :
    (⟨44100, 7, ([] : List (List ℚ))⟩ : RawAudioBuffer).channels = [] ∧
    ((audioBufferToWavBlob ⟨44100, 7, ([] : List (List ℚ))⟩).length = 44 ∧
      readU16 (audioBufferToWavBlob ⟨44100, 7, ([] : List (List ℚ))⟩) 22 = 0 ∧
      readU32 (audioBufferToWavBlob ⟨44100, 7, ([] : List (List ℚ))⟩) 28 = 0 ∧
      readU16 (audioBufferToWavBlob ⟨44100, 7, ([] : List (List ℚ))⟩) 32 = 0 ∧
      readU32 (audioBufferToWavBlob ⟨44100, 7, ([] : List (List ℚ))⟩) 40 = 0) :=
  ⟨rfl, c10_zero_channels_degenerate_file ⟨44100, 7, ([] : List (List ℚ))⟩ rfl⟩

/-- C3: for every well-formed buffer (whose fields fit the 16/32-bit
header slots), `audioBufferToWavBlob` emits the canonical 44-byte
little-endian RIFF/WAVE PCM header followed immediately by the
quantized 16-bit samples in interleaved order, two bytes each. -/
theorem c3_wav_byte_layout (b : RawAudioBuffer) (_h : wellformed b)
    (hba : b.channels.length * 2 < 65536)
    (hsr : b.sampleRate < 4294967296)
    (hbr : b.sampleRate * b.channels.length * 2 < 4294967296)
    (hdl : 36 + b.length * b.channels.length * 2 < 4294967296) :
    ((audioBufferToWavBlob b).getD 0 0 = 82 ∧
      (audioBufferToWavBlob b).getD 1 0 = 73 ∧
      (audioBufferToWavBlob b).getD 2 0 = 70 ∧
      (audioBufferToWavBlob b).getD 3 0 = 70) ∧
    readU32 (audioBufferToWavBlob b) 4
      = 36 + b.length * b.channels.length * 2 ∧
    ((audioBufferToWavBlob b).getD 8 0 = 87 ∧
      (audioBufferToWavBlob b).getD 9 0 = 65 ∧
      (audioBufferToWavBlob b).getD 10 0 = 86 ∧
      (audioBufferToWavBlob b).getD 11 0 = 69) ∧
    ((audioBufferToWavBlob b).getD 12 0 = 102 ∧
      (audioBufferToWavBlob b).getD 13 0 = 109 ∧
      (audioBufferToWavBlob b).getD 14 0 = 116 ∧
      (audioBufferToWavBlob b).getD 15 0 = 32) ∧
    readU32 (audioBufferToWavBlob b) 16 = 16 ∧
    readU16 (audioBufferToWavBlob b) 20 = 1 ∧
    readU16 (audioBufferToWavBlob b) 22 = b.channels.length ∧
    readU32 (audioBufferToWavBlob b) 24 = b.sampleRate ∧
    readU32 (audioBufferToWavBlob b) 28
      = b.sampleRate * b.channels.length * 2 ∧
    readU16 (audioBufferToWavBlob b) 32 = b.channels.length * 2 ∧
    readU16 (audioBufferToWavBlob b) 34 = 16 ∧
    ((audioBufferToWavBlob b).getD 36 0 = 100 ∧
      (audioBufferToWavBlob b).getD 37 0 = 97 ∧
      (audioBufferToWavBlob b).getD 38 0 = 116 ∧
      (audioBufferToWavBlob b).getD 39 0 = 97) ∧
    readU32 (audioBufferToWavBlob b) 40 = b.length * b.channels.length * 2 ∧
    (∀ p, p < b.length * b.channels.length →
      readS16 (audioBufferToWavBlob b) (44 + 2 * p)
        = quantize16 ((interleave b).getD p 0)) := by
  have hil := interleave_length b
  refine ⟨encode_riff_bytes b, ?_, encode_wave_bytes b, encode_fmtTag_bytes b,
    encode_fmtSize b, encode_formatTag b, ?_, ?_, ?_, ?_,
    encode_bitsPerSample b, encode_data_bytes b, ?_, ?_⟩
  · rw [encode_chunkSize, hil]
    exact Nat.mod_eq_of_lt hdl
  · rw [encode_numChannels]
    exact Nat.mod_eq_of_lt (by omega)
  · rw [encode_sampleRate]
    exact Nat.mod_eq_of_lt hsr
  · rw [encode_byteRate]
    exact Nat.mod_eq_of_lt hbr
  · rw [encode_blockAlign]
    exact Nat.mod_eq_of_lt hba
  · rw [encode_dataLength, hil]
    exact Nat.mod_eq_of_lt (by omega)
  · intro p hp
    exact encode_payload b p (by omega)

/-- C2 counterexample: at the in-range sample 1/2 the code emits the
truncated value 16383, whereas round(1/2 * 32767) = round(16383.5) is
16384, so the quantizer does not round to nearest as claimed. -/
theorem c2_counterexample :
    quantize16 (1/2) = 16383 ∧ round ((1/2 : ℚ) * 32767) = 16384 ∧
    quantize16 (1/2) ≠ round ((1/2 : ℚ) * 32767) := by
  refine ⟨quantize16_half, ?_, ?_⟩
  · norm_num [round_eq]
  · rw [quantize16_half]
    norm_num [round_eq]

/-- C2 (amended): the quantizer clamps each sample to [-1, 1], scales by
32768 for negative values and 32767 otherwise, and truncates toward zero
(the `setInt16` integer conversion) — not round-to-nearest; the 16-bit
value actually written to the payload bytes, read back as signed
little-endian, equals exactly this truncated quantity. -/
theorem c2_quantizer_clamps_scales_truncates (s : ℚ) (sr : ℕ) :
    quantize16 s = quantizeSpecTrunc s ∧
    readS16 (audioBufferToWavBlob ⟨sr, 1, [[s]]⟩) 44 = quantizeSpecTrunc s := by
  have hq : quantize16 s = quantizeSpecTrunc s := by
    simp only [quantize16, quantizeSpecTrunc, jsTrunc]
    by_cases h : (if max (-1 : ℚ) (min 1 s) < 0
        then max (-1 : ℚ) (min 1 s) * 32768
        else max (-1 : ℚ) (min 1 s) * 32767) < 0
    · rw [if_pos h, if_pos h, Int.floor_neg, neg_neg]
    · rw [if_neg h, if_neg h]
  refine ⟨hq, ?_⟩
  have h1 : interleave ⟨sr, 1, [[s]]⟩ = [s] := by
    simp [interleave, interleaveFrames]
  have h2 := encode_payload ⟨sr, 1, [[s]]⟩ 0 (by rw [h1]; simp)
  simp only [Nat.mul_zero, Nat.add_zero, h1] at h2
  rw [h2]
  simpa using hq

/-- C4 counterexample: in the reference buffer the second interleaved
sample 0.5 is emitted as 16383, not 16384 as the claim states. -/
theorem c4_counterexample :
    readS16 (audioBufferToWavBlob ⟨44100, 2, [[1, -1], [1/2, 0]]⟩) 46 = 16383 ∧
    (16383 : ℤ) ≠ 16384 := by
  constructor
  · have h2 := encode_payload ⟨44100, 2, [[1, -1], [1/2, 0]]⟩ 1
      (by rw [interleave_example]; simp)
    simp only [show (44 + 2 * 1 : ℕ) = 46 from rfl, interleave_example] at h2
    rw [h2]
    simpa using quantize16_half
  · decide

/-- C4 (amended): for the buffer sampleRate=44100, channelCount=2,
frameCount=2, channel0=[1.0, -1.0], channel1=[0.5, 0.0], encode produces
exactly these 52 bytes: the RIFF/WAVE header (chunk size 44, 2 channels,
rate 44100, data length 8) followed by the little-endian 16-bit samples
32767, 16383, -32768, 0 in interleaved order. -/
theorem c4_reference_buffer_bytes :
    audioBufferToWavBlob ⟨44100, 2, [[1, -1], [1/2, 0]]⟩
      = [82, 73, 70, 70, 44, 0, 0, 0, 87, 65, 86, 69,
         102, 109, 116, 32, 16, 0, 0, 0, 1, 0, 2, 0,
         68, 172, 0, 0, 16, 177, 2, 0, 4, 0, 16, 0,
         100, 97, 116, 97, 8, 0, 0, 0,
         255, 127, 255, 63, 0, 128, 0, 0] := by
  rw [audioBufferToWavBlob_eq, interleave_example]
  simp only [headerView, interleave_example, List.length_cons, List.length_nil]
  simp only [floatTo16BitPCM, quantize16_one, quantize16_half,
    quantize16_neg_one, quantize16_zero]
  decide

/-- C3 witness: mono buffer with one frame at 8000 Hz. -/
theorem c3_witness :
    wellformed ⟨8000, 1, [[(1 : ℚ)/2]]⟩ ∧
    readU16 (audioBufferToWavBlob ⟨8000, 1, [[(1 : ℚ)/2]]⟩) 20 = 1 :=
  ⟨by decide,
    (c3_wav_byte_layout ⟨8000, 1, [[(1 : ℚ)/2]]⟩ (by decide) (by decide)
      (by decide) (by decide) (by decide)).2.2.2.2.2.1⟩
